import Mathlib

/-!
Verification of the stellar-insights backend core: idempotent payment
persistence, muxed-address analytics, cache-aside helpers, corridor filter
validation, anchor metric updates and the background sync loop, shallowly
embedded from `src/backend/src/{database.rs, cache/helpers.rs, validation.rs,
main.rs}`.
-/

namespace StellarInsights

/-! ## Payments data model and `save_payments` (database.rs, lines 1017-1048)

A `PaymentRecord` carries the columns bound by the INSERT in `save_payments`.
The `payments` table is modelled as a list of rows in insertion order; `amount`
is modelled as a rational, `created_at` as an integer timestamp. -/

structure PaymentRecord where
  id : String
  transaction_hash : String
  source_account : String
  destination_account : String
  asset_type : String
  asset_code : String
  asset_issuer : String
  amount : Rat
  created_at : Int
deriving DecidableEq, Repr

/-- Row ids present in a payments table. -/
def paymentIds (t : List PaymentRecord) : List String :=
  t.map (·.id)

/-- Database-level errors surfaced by sqlx `execute`; a plain INSERT of a
duplicate primary key would surface `uniqueViolation`. -/
inductive DbError where
  | uniqueViolation
deriving DecidableEq, Repr

/-- One `INSERT INTO payments ... ON CONFLICT (id) DO NOTHING` statement:
when a row with the same `id` exists the statement succeeds and changes
nothing; otherwise the row is appended. It never raises `uniqueViolation`
(that is the DO NOTHING clause). -/
def insertPaymentOnConflictDoNothing (t : List PaymentRecord) (p : PaymentRecord) :
    Except DbError (List PaymentRecord) :=
  .ok (if p.id ∈ paymentIds t then t else t ++ [p])

/-- The pure effect of one insert statement on the table. -/
def insertPayment (t : List PaymentRecord) (p : PaymentRecord) : List PaymentRecord :=
  if p.id ∈ paymentIds t then t else t ++ [p]

/-- `Database::save_payments`: loops over the batch, executing one
conflict-ignoring insert per record, propagating any statement error with
`?`. -/
def save_payments (t : List PaymentRecord) (batch : List PaymentRecord) :
    Except DbError (List PaymentRecord) :=
  batch.foldlM insertPaymentOnConflictDoNothing t

/-- The pure table produced by a successful `save_payments` run. -/
def savePaymentsRun (t : List PaymentRecord) (batch : List PaymentRecord) :
    List PaymentRecord :=
  batch.foldl insertPayment t

theorem save_payments_eq_run (t batch : List PaymentRecord) :
    save_payments t batch = .ok (savePaymentsRun t batch) := by
  induction batch generalizing t with
  | nil => rfl
  | cons p rest ih =>
      simp only [save_payments, savePaymentsRun, List.foldlM_cons, List.foldl_cons,
        insertPaymentOnConflictDoNothing, insertPayment] at *
      exact ih (if p.id ∈ paymentIds t then t else t ++ [p])

theorem insertPayment_extends (t : List PaymentRecord) (p : PaymentRecord) :
    t <+: insertPayment t p := by
  unfold insertPayment
  by_cases h : p.id ∈ paymentIds t
  · simp [h]
  · simp [h]

theorem savePaymentsRun_extends (t batch : List PaymentRecord) :
    t <+: savePaymentsRun t batch := by
  induction batch generalizing t with
  | nil => exact List.prefix_refl t
  | cons p rest ih =>
      exact (insertPayment_extends t p).trans (ih (insertPayment t p))

theorem ids_subset_of_extends {t t' : List PaymentRecord} (h : t <+: t') :
    paymentIds t ⊆ paymentIds t' := by
  rcases h with ⟨s, rfl⟩
  intro a ha
  simp only [paymentIds, List.map_append, List.mem_append]
  exact Or.inl ha

theorem mem_ids_insertPayment {a : String} {t : List PaymentRecord}
    (p : PaymentRecord) (h : a ∈ paymentIds t) : a ∈ paymentIds (insertPayment t p) :=
  ids_subset_of_extends (insertPayment_extends t p) h

theorem mem_ids_savePaymentsRun {a : String} {t : List PaymentRecord}
    (batch : List PaymentRecord) (h : a ∈ paymentIds t) :
    a ∈ paymentIds (savePaymentsRun t batch) :=
  ids_subset_of_extends (savePaymentsRun_extends t batch) h

theorem self_mem_ids_savePaymentsRun {p : PaymentRecord} :
    ∀ (batch : List PaymentRecord) (t : List PaymentRecord), p ∈ batch →
      p.id ∈ paymentIds (savePaymentsRun t batch)
  | [], _, h => absurd h (List.not_mem_nil p)
  | q :: rest, t, h => by
      simp only [savePaymentsRun, List.foldl_cons]
      rcases List.mem_cons.mp h with rfl | h2
      · refine mem_ids_savePaymentsRun rest ?_
        by_cases hq : p.id ∈ paymentIds t
        · simpa [insertPayment, hq]
        · unfold insertPayment
          rw [if_neg hq]
          simp [paymentIds]
      · exact self_mem_ids_savePaymentsRun rest (insertPayment t q) h2

theorem savePaymentsRun_of_all_present {t : List PaymentRecord}
    {batch : List PaymentRecord} (h : ∀ p ∈ batch, p.id ∈ paymentIds t) :
    savePaymentsRun t batch = t := by
  induction batch with
  | nil => rfl
  | cons p rest ih =>
      have hp : p.id ∈ paymentIds t := h p (by simp)
      have hstep : insertPayment t p = t := by simp [insertPayment, hp]
      simp only [savePaymentsRun, List.foldl_cons, hstep]
      exact ih (fun q hq => h q (by simp [hq]))

theorem count_id_insertPayment {a : String} (t : List PaymentRecord)
    (p : PaymentRecord) (h : a ∈ paymentIds t) :
    (paymentIds (insertPayment t p)).count a = (paymentIds t).count a := by
  unfold insertPayment
  by_cases hp : p.id ∈ paymentIds t
  · simp [hp]
  · have hne : ¬ (p.id = a) := fun he => hp (he ▸ h)
    rw [if_neg hp]
    simp only [paymentIds, List.map_append, List.count_append, List.map_cons,
      List.map_nil]
    simp [List.count_singleton, hne]

theorem count_id_savePaymentsRun {a : String} {t : List PaymentRecord}
    (batch : List PaymentRecord) (h : a ∈ paymentIds t) :
    (paymentIds (savePaymentsRun t batch)).count a = (paymentIds t).count a := by
  induction batch generalizing t with
  | nil => rfl
  | cons p rest ih =>
      simp only [savePaymentsRun, List.foldl_cons] at *
      rw [ih (mem_ids_insertPayment p h), count_id_insertPayment t p h]

theorem savePaymentsRun_idem (t batch : List PaymentRecord) :
    savePaymentsRun (savePaymentsRun t batch) batch = savePaymentsRun t batch :=
  savePaymentsRun_of_all_present
    (fun p hp => self_mem_ids_savePaymentsRun batch t hp)

theorem iterate_savePaymentsRun (t : List PaymentRecord)
    (batch : List PaymentRecord) :
    ∀ n : Nat, (fun tb => savePaymentsRun tb batch)^[n + 1] t = savePaymentsRun t batch
  | 0 => by simp
  | n + 1 => by
      rw [Function.iterate_succ_apply]
      rw [iterate_savePaymentsRun (savePaymentsRun t batch) batch n]
      exact savePaymentsRun_idem t batch

/-- C1: replaying a batch that contains an already-stored payment id succeeds
(no error), leaves every previously stored row (in particular the duplicated
row `r`) in place and unchanged, does not create a second row with `r`'s id,
and persisting the same batch any number of times produces the same final
payments table as persisting it once. -/
theorem save_payments_duplicate_id_noop
    (t batch : List PaymentRecord) (r : PaymentRecord)
    (hr : r ∈ t) (hdup : ∃ p ∈ batch, p.id = r.id) :
    save_payments t batch = .ok (savePaymentsRun t batch) ∧
    t <+: savePaymentsRun t batch ∧
    r ∈ savePaymentsRun t batch ∧
    (paymentIds (savePaymentsRun t batch)).count r.id = (paymentIds t).count r.id ∧
    (∀ n : Nat,
      (fun tb => savePaymentsRun tb batch)^[n + 1] t = savePaymentsRun t batch) := by
  have hid : r.id ∈ paymentIds t := List.mem_map_of_mem (·.id) hr
  refine ⟨save_payments_eq_run t batch, savePaymentsRun_extends t batch, ?_, ?_, ?_⟩
  · exact (savePaymentsRun_extends t batch).subset hr
  · exact count_id_savePaymentsRun batch hid
  · exact iterate_savePaymentsRun t batch

/-- A sample payment row used to instantiate hypotheses concretely. -/
def samplePayment : PaymentRecord :=
  { id := "pay-1", transaction_hash := "tx-1", source_account := "GSRC",
    destination_account := "GDST", asset_type := "native", asset_code := "",
    asset_issuer := "", amount := 5, created_at := 0 }

/-- Witness for C1 at a one-row table whose row is replayed in the batch. -/
theorem save_payments_duplicate_id_noop_witness :
    samplePayment ∈ [samplePayment] ∧
    (∃ p ∈ [samplePayment], p.id = samplePayment.id) ∧
    (save_payments [samplePayment] [samplePayment] =
        .ok (savePaymentsRun [samplePayment] [samplePayment]) ∧
      [samplePayment] <+: savePaymentsRun [samplePayment] [samplePayment] ∧
      samplePayment ∈ savePaymentsRun [samplePayment] [samplePayment] ∧
      (paymentIds (savePaymentsRun [samplePayment] [samplePayment])).count
          samplePayment.id = (paymentIds [samplePayment]).count samplePayment.id ∧
      (∀ n : Nat,
        (fun tb => savePaymentsRun tb [samplePayment])^[n + 1] [samplePayment] =
          savePaymentsRun [samplePayment] [samplePayment])) :=
  ⟨by simp, ⟨samplePayment, by simp⟩,
    save_payments_duplicate_id_noop [samplePayment] [samplePayment] samplePayment
      (by simp) ⟨samplePayment, by simp⟩⟩

/-! ## Cache-aside helpers (cache/helpers.rs)

`cached_query` is embedded as a pure function of the three effectful
interactions it performs: the backend read (`cache.get`), the producer
(`query_fn`) and the backend write (`cache.set`). Each is represented by its
outcome (`Except CacheErr _`), mirroring the `anyhow::Result` values the Rust
code matches on; the `?` on the read and on the producer propagates errors,
while the write outcome is only logged. -/

/-- Opaque backend / producer error payload (anyhow error message). -/
structure CacheErr where
  msg : String
deriving DecidableEq, Repr

/-- `cached_query(cache, key, ttl, query_fn)` for a fixed key and ttl:
  * `getRes` — outcome of `cache.get::<T>(key)`: error, hit, or miss;
  * `queryFn` — the deferred producer;
  * `setRes` — outcome of `cache.set(key, result, ttl)` for a given result. -/
def cached_query {T : Type} (getRes : Except CacheErr (Option T))
    (queryFn : Unit → Except CacheErr T) (setRes : T → Except CacheErr Unit) :
    Except CacheErr T :=
  match getRes with
  | .error e => .error e
  | .ok (some cached) => .ok cached
  | .ok none =>
    match queryFn () with
    | .error e => .error e
    | .ok result =>
      match setRes result with
      | .error _ => .ok result
      | .ok _ => .ok result

/-- C4: when the backend read fails, `cached_query` returns that error; the
producer is never invoked (the result does not depend on the producer or on
the write outcome), so a read failure is never treated as a cache miss. -/
theorem cached_query_read_failure_propagates {T : Type} (e : CacheErr)
    (queryFn : Unit → Except CacheErr T) (setRes : T → Except CacheErr Unit) :
    cached_query (.error e) queryFn setRes = .error e ∧
    (∀ (q₂ : Unit → Except CacheErr T) (s₂ : T → Except CacheErr Unit),
      cached_query (.error e) queryFn setRes = cached_query (.error e) q₂ s₂) := by
  exact ⟨rfl, fun q₂ s₂ => rfl⟩

/-- C5: on a miss whose producer succeeds with `v`, `cached_query` returns
`Ok v` even when the backend write fails; more generally, the result of
`cached_query` never depends on the write outcome. -/
theorem cached_query_write_failure_swallowed {T : Type} (v : T) (e : CacheErr) :
    cached_query (.ok none) (fun _ => .ok v) (fun _ => .error e) = .ok v ∧
    (∀ (getRes : Except CacheErr (Option T)) (queryFn : Unit → Except CacheErr T)
      (s₁ s₂ : T → Except CacheErr Unit),
      cached_query getRes queryFn s₁ = cached_query getRes queryFn s₂) := by
  refine ⟨rfl, fun getRes queryFn s₁ s₂ => ?_⟩
  cases getRes with
  | error e2 => rfl
  | ok o =>
    cases o with
    | some cached => rfl
    | none =>
      simp only [cached_query]
      cases hq : queryFn () with
      | error e2 => rfl
      | ok result => cases hs1 : s₁ result <;> cases hs2 : s₂ result <;> simp [hs1, hs2]

/-! ### `build_param_cache_key` (cache/helpers.rs, lines 54-67)

`calculate_hash` serializes the params with `serde_json::to_string` and hashes
the resulting string with `std::collections::hash_map::DefaultHasher`, i.e.
SipHash-1-3 with the fixed key (0, 0) — no per-process random seed. A generic
`P : Serialize` value is represented here by its (deterministic) serialized
string. `String`'s `Hash` impl feeds the UTF-8 bytes followed by a `0xff`
terminator byte into the hasher, and the result is printed with lowercase hex
formatting. All 64-bit words are modelled as naturals reduced mod 2^64. -/

/-- 64-bit wrap-around addition. -/
def wadd (a b : Nat) : Nat := (a + b) % (2 ^ 64)

/-- 64-bit left rotation. -/
def wrotl (x n : Nat) : Nat :=
  ((x * 2 ^ n) % (2 ^ 64)) + (x / 2 ^ (64 - n))

/-- SipHash internal state. -/
structure SipState where
  v0 : Nat
  v1 : Nat
  v2 : Nat
  v3 : Nat

/-- One SipRound. -/
def sipRound (s : SipState) : SipState :=
  let v0 := wadd s.v0 s.v1
  let v1 := wrotl s.v1 13
  let v1 := v1 ^^^ v0
  let v0 := wrotl v0 32
  let v2 := wadd s.v2 s.v3
  let v3 := wrotl s.v3 16
  let v3 := v3 ^^^ v2
  let v0 := wadd v0 v3
  let v3 := wrotl v3 21
  let v3 := v3 ^^^ v0
  let v2 := wadd v2 v1
  let v1 := wrotl v1 17
  let v1 := v1 ^^^ v2
  let v2 := wrotl v2 32
  ⟨v0, v1, v2, v3⟩

/-- Little-endian value of a byte list (at most 8 bytes). -/
def leWord : List Nat → Nat
  | [] => 0
  | b :: rest => b + 256 * leWord rest

/-- Compression of one 8-byte word (c = 1 round for SipHash-1-3). -/
def sipCompress (s : SipState) (m : Nat) : SipState :=
  let s := { s with v3 := s.v3 ^^^ m }
  let s := sipRound s
  { s with v0 := s.v0 ^^^ m }

/-- Processes whole 8-byte chunks, returning the state and the tail bytes. -/
def sipChunks (s : SipState) : List Nat → SipState × List Nat
  | b0 :: b1 :: b2 :: b3 :: b4 :: b5 :: b6 :: b7 :: rest =>
      sipChunks (sipCompress s (leWord [b0, b1, b2, b3, b4, b5, b6, b7])) rest
  | rest => (s, rest)

/-- SipHash-1-3 with key (0, 0), as used by `DefaultHasher::new()`. -/
def siphash13 (msg : List Nat) : Nat :=
  let s : SipState := ⟨0x736f6d6570736575, 0x646f72616e646f6d,
    0x6c7967656e657261, 0x7465646279746573⟩
  let (s, tail) := sipChunks s msg
  let b := ((msg.length % 256) * 2 ^ 56) + leWord tail
  let s := sipCompress s b
  let s := { s with v2 := s.v2 ^^^ 0xff }
  let s := sipRound (sipRound (sipRound s))
  s.v0 ^^^ s.v1 ^^^ s.v2 ^^^ s.v3

/-- UTF-8 encoding of one character. -/
def utf8Bytes (c : Char) : List Nat :=
  let n := c.toNat
  if n < 0x80 then [n]
  else if n < 0x800 then
    [0xC0 ||| (n >>> 6), 0x80 ||| (n &&& 0x3F)]
  else if n < 0x10000 then
    [0xE0 ||| (n >>> 12), 0x80 ||| ((n >>> 6) &&& 0x3F), 0x80 ||| (n &&& 0x3F)]
  else
    [0xF0 ||| (n >>> 18), 0x80 ||| ((n >>> 12) &&& 0x3F),
      0x80 ||| ((n >>> 6) &&& 0x3F), 0x80 ||| (n &&& 0x3F)]

/-- The byte stream `Hash for str` feeds to the hasher: UTF-8 bytes followed
by the `0xff` terminator. -/
def stringHashBytes (s : String) : List Nat :=
  (s.data.flatMap utf8Bytes) ++ [0xff]

/-- Rust `{:x}` lowercase hex rendering of a `u64`. -/
def hexLower (n : Nat) : String :=
  String.mk (Nat.toDigits 16 n)

/-- `calculate_hash`: hash of the serde_json serialization, in lowercase hex.
The generic `P : Serialize` argument is represented by its serialized JSON
string (serde_json serialization of a fixed value is deterministic). -/
def calculate_hash (paramsJson : String) : String :=
  hexLower (siphash13 (stringHashBytes paramsJson))

/-- `build_param_cache_key`: `format!("{}:{}", key_prefix, params_hash)`. -/
def build_param_cache_key (pfx : String) (paramsJson : String) : String :=
  pfx ++ ":" ++ calculate_hash paramsJson

/-- C7: key derivation is deterministic — two calls on the same prefix and the
same serialized params produce identical strings — and the derived key always
begins with the prefix followed by a colon. -/
theorem build_param_cache_key_deterministic_and_prefixed
    (pfx : String) (paramsJson : String) :
    build_param_cache_key pfx paramsJson = build_param_cache_key pfx paramsJson ∧
    (pfx ++ ":").data <+: (build_param_cache_key pfx paramsJson).data := by
  refine ⟨rfl, ?_⟩
  refine ⟨(calculate_hash paramsJson).data, ?_⟩
  cases pfx with
  | mk pdata =>
    cases h : calculate_hash paramsJson with
    | mk hdata => simp [build_param_cache_key, h, String.instAppend, String.append]

/-! ## Corridor filter validation (validation.rs)

`f64` inputs are modelled by `F64`: NaN, the two infinities, and finite values
as rationals (every value the validators compare — 0, 100, 1e18 and the
claim's inputs — is exactly representable). IEEE comparisons on NaN are false;
the NaN case is anyway intercepted by the `is_finite` check first. The textual
rendering of numbers inside messages models Rust's `Display` for the integral
values that occur here; the claims only inspect the parameter name at the
start of the message. -/

inductive F64 where
  | nan
  | inf
  | neginf
  | fin (q : Rat)
deriving DecidableEq, Repr

/-- `f64::is_finite`. -/
def F64.isFinite : F64 → Bool
  | .fin _ => true
  | _ => false

/-- `f64::is_nan`. -/
def F64.isNan : F64 → Bool
  | .nan => true
  | _ => false

/-- IEEE `<` on doubles: any comparison involving NaN is false. -/
def F64.flt : F64 → F64 → Bool
  | .nan, _ => false
  | _, .nan => false
  | .inf, _ => false
  | .neginf, .neginf => false
  | .neginf, _ => true
  | .fin _, .inf => true
  | .fin _, .neginf => false
  | .fin q, .fin r => decide (q < r)

/-- Modelled from the spec: `ApiError::bad_request(code, message)` of the
crate's error module (the module itself is not under src/); per the spec a
`ValidationFailure` is "surfaced to the caller with the offending parameter
name and value". -/
structure ApiError where
  code : String
  message : String
deriving DecidableEq, Repr

def ApiError.bad_request (code message : String) : ApiError := ⟨code, message⟩

/-- Rendering of the rationals appearing in validator messages (Rust `Display`
prints the integral doubles used here without a decimal point). -/
def ratDisplay (q : Rat) : String :=
  if q.den = 1 then toString q.num else toString q.num ++ "/" ++ toString q.den

/-- Rendering of a double in the range-error message. -/
def F64.display : F64 → String
  | .nan => "NaN"
  | .inf => "inf"
  | .neginf => "-inf"
  | .fin q => ratDisplay q

/-- `validate_filter_f64`: a `None` filter passes; a non-finite value or a
value outside `[minAllowed, maxAllowed]` is rejected with an
`INVALID_PARAMETER` error whose message starts with the parameter name. -/
def validate_filter_f64 (value : Option F64) (minAllowed maxAllowed : Rat)
    (paramName : String) : Except ApiError Unit :=
  match value with
  | none => .ok ()
  | some v =>
    if !v.isFinite then
      .error (ApiError.bad_request "INVALID_PARAMETER"
        (paramName ++ " must be a finite number (got " ++
          (if v.isNan then "NaN" else "infinity") ++ ")."))
    else if v.flt (.fin minAllowed) || (F64.fin maxAllowed).flt v then
      .error (ApiError.bad_request "INVALID_PARAMETER"
        (paramName ++ " must be between " ++ ratDisplay minAllowed ++ " and " ++
          ratDisplay maxAllowed ++ " (got " ++ v.display ++ ")."))
    else .ok ()

/-- `validate_corridor_filters`: success rates in [0, 100], volumes in
[0, 1e18], and `min <= max` for each pair when both are set; the first failing
check aborts via `?`. -/
def validate_corridor_filters (success_rate_min success_rate_max
    volume_min volume_max : Option F64) : Except ApiError Unit := do
  validate_filter_f64 success_rate_min 0 100 "success_rate_min"
  validate_filter_f64 success_rate_max 0 100 "success_rate_max"
  validate_filter_f64 volume_min 0 (10 ^ 18) "volume_min"
  validate_filter_f64 volume_max 0 (10 ^ 18) "volume_max"
  (match success_rate_min, success_rate_max with
    | some mn, some mx =>
      if mx.flt mn then
        Except.error (ApiError.bad_request "INVALID_PARAMETER"
          "success_rate_min must be less than or equal to success_rate_max.")
      else .ok ()
    | _, _ => .ok ())
  (match volume_min, volume_max with
    | some mn, some mx =>
      if mx.flt mn then
        Except.error (ApiError.bad_request "INVALID_PARAMETER"
          "volume_min must be less than or equal to volume_max.")
      else .ok ()
    | _, _ => .ok ())

/-- C6: the four boundary scenarios — NaN and 101 for `success_rate_min` fail,
inverted volume bounds (1e7, 1e5) fail, and (0, 100) success-rate bounds pass;
each failure carries code `INVALID_PARAMETER` and a message beginning with the
offending parameter's name (nothing is clamped to a success). -/
theorem validate_corridor_filters_boundaries :
    (∃ e, validate_corridor_filters (some .nan) none none none = .error e ∧
      e.code = "INVALID_PARAMETER" ∧
      "success_rate_min".data.isPrefixOf e.message.data = true) ∧
    (∃ e, validate_corridor_filters (some (.fin 101)) none none none = .error e ∧
      e.code = "INVALID_PARAMETER" ∧
      "success_rate_min".data.isPrefixOf e.message.data = true) ∧
    (∃ e, validate_corridor_filters none none (some (.fin 10000000))
        (some (.fin 100000)) = .error e ∧
      e.code = "INVALID_PARAMETER" ∧
      "volume_min".data.isPrefixOf e.message.data = true) ∧
    validate_corridor_filters (some (.fin 0)) (some (.fin 100)) none none =
      .ok () := by
  refine ⟨⟨ApiError.bad_request "INVALID_PARAMETER"
      "success_rate_min must be a finite number (got NaN).", by rfl, by rfl, by decide⟩,
    ⟨ApiError.bad_request "INVALID_PARAMETER"
      "success_rate_min must be between 0 and 100 (got 101).", by rfl, by rfl, by decide⟩,
    ⟨ApiError.bad_request "INVALID_PARAMETER"
      "volume_min must be less than or equal to volume_max.", by rfl, by rfl, by decide⟩,
    by rfl⟩

theorem validate_filter_f64_above_cap (q : Rat) (h : (10 : Rat) ^ 18 < q)
    (name : String) :
    validate_filter_f64 (some (.fin q)) 0 (10 ^ 18) name =
      .error (ApiError.bad_request "INVALID_PARAMETER"
        (name ++ " must be between " ++ ratDisplay 0 ++ " and " ++
          ratDisplay (10 ^ 18) ++ " (got " ++ ratDisplay q ++ ").")) := by
  have h0 : ¬ q < 0 := not_lt.mpr (le_trans (by norm_num) h.le)
  simp [validate_filter_f64, F64.isFinite, F64.flt, F64.display, h, h0]

/-- C10: a finite `volume_min` or `volume_max` strictly above the 1e18 cap is
rejected with an `INVALID_PARAMETER` error whose message names the offending
parameter, even though such a value is a well-formed non-negative number. -/
theorem validate_corridor_filters_rejects_huge_volume (q : Rat)
    (h : (10 : Rat) ^ 18 < q) :
    (∃ e, validate_corridor_filters none none (some (.fin q)) none = .error e ∧
      e.code = "INVALID_PARAMETER" ∧
      "volume_min".data.isPrefixOf e.message.data = true) ∧
    (∃ e, validate_corridor_filters none none none (some (.fin q)) = .error e ∧
      e.code = "INVALID_PARAMETER" ∧
      "volume_max".data.isPrefixOf e.message.data = true) := by
  have hmin := validate_filter_f64_above_cap q h "volume_min"
  have hmax := validate_filter_f64_above_cap q h "volume_max"
  constructor
  · refine ⟨ApiError.bad_request "INVALID_PARAMETER"
      ("volume_min" ++ " must be between " ++ ratDisplay 0 ++ " and " ++
        ratDisplay (10 ^ 18) ++ " (got " ++ ratDisplay q ++ ")."), ?_, rfl, ?_⟩
    · simp only [validate_corridor_filters]
      rw [hmin]
      rfl
    · simp only [ApiError.bad_request]
      rw [String.append_assoc, String.append_assoc, String.append_assoc,
        String.append_assoc, String.append_assoc]
      rw [String.data_append]
      exact List.isPrefixOf_iff_prefix.mpr (List.prefix_append _ _)
  · refine ⟨ApiError.bad_request "INVALID_PARAMETER"
      ("volume_max" ++ " must be between " ++ ratDisplay 0 ++ " and " ++
        ratDisplay (10 ^ 18) ++ " (got " ++ ratDisplay q ++ ")."), ?_, rfl, ?_⟩
    · simp only [validate_corridor_filters]
      rw [hmax]
      rfl
    · simp only [ApiError.bad_request]
      rw [String.append_assoc, String.append_assoc, String.append_assoc,
        String.append_assoc, String.append_assoc]
      rw [String.data_append]
      exact List.isPrefixOf_iff_prefix.mpr (List.prefix_append _ _)

/-- Witness for C10 at the concrete volume 1e18 + 1. -/
theorem validate_corridor_filters_rejects_huge_volume_witness :
    ((10 : Rat) ^ 18 < ((10 : Rat) ^ 18 + 1)) ∧
    ((∃ e, validate_corridor_filters none none (some (.fin ((10 : Rat) ^ 18 + 1)))
        none = .error e ∧
      e.code = "INVALID_PARAMETER" ∧
      "volume_min".data.isPrefixOf e.message.data = true) ∧
    (∃ e, validate_corridor_filters none none none
        (some (.fin ((10 : Rat) ^ 18 + 1))) = .error e ∧
      e.code = "INVALID_PARAMETER" ∧
      "volume_max".data.isPrefixOf e.message.data = true)) :=
  ⟨by norm_num,
    validate_corridor_filters_rejects_huge_volume ((10 : Rat) ^ 18 + 1) (by norm_num)⟩

/-! ## Muxed account analytics (database.rs, lines 1118-1225)

`get_muxed_analytics` is embedded as a pure function of the payments table
(list of rows in insertion order) and of the external address decoder
`muxed::parse_muxed_address` (whose module is not under src/; per the spec it
is the "external decoder" `decode(address) -> {base_account, sub_id}|none`,
so it is passed as a parameter).

Modelling choices for unspecified orders, noted where they matter:
  * SQL `GROUP BY` groups appear in order of first appearance in the table,
    and `ORDER BY cnt DESC` is modelled as a stable sort, so ties keep that
    order (SQLite leaves tie order unspecified);
  * the Rust `HashMap` `by_addr` iterates in insertion order (Rust leaves the
    iteration order unspecified);
  * Rust's stable `sort_by(|a, b| b.total_payments.cmp(&a.total_payments))`
    is modelled as a stable insertion sort on the same key;
  * the `BTreeSet` collect is an ascending duplicate-free insertion. -/

/-- The M-address detection used by every query:
`addr LIKE 'M%' AND LENGTH(addr) = 69`. -/
def isMuxedAddr (s : String) : Bool :=
  (match s.data with
    | [] => false
    | c :: _ => c = 'M') && s.data.length = 69

/-- Decoded multiplexed address info returned by the external decoder. -/
structure MuxedInfo where
  base_account : Option String
  muxed_id : Option Int
deriving DecidableEq, Repr

/-- One entry of `top_muxed_by_activity`. -/
structure MuxedAccountUsage where
  account_address : String
  base_account : Option String
  muxed_id : Option Int
  payment_count_as_source : Int
  payment_count_as_destination : Int
  total_payments : Int
deriving DecidableEq, Repr

/-- The analytics payload (the always-`Some` fields of the Rust struct;
its always-`None` legacy fields are omitted). -/
structure MuxedAccountAnalytics where
  total_muxed_payments : Int
  unique_muxed_addresses : Int
  top_muxed_by_activity : List MuxedAccountUsage
  base_accounts_with_muxed : List String
deriving DecidableEq, Repr

/-- Muxed source addresses of the table, one per payment row. -/
def muxedSources (t : List PaymentRecord) : List String :=
  (t.map (·.source_account)).filter isMuxedAddr

/-- Muxed destination addresses of the table, one per payment row. -/
def muxedDests (t : List PaymentRecord) : List String :=
  (t.map (·.destination_account)).filter isMuxedAddr

/-- SQL `GROUP BY addr` with `COUNT(*)`: distinct addresses in order of first
appearance, each with its number of occurrences. -/
def groupCounts (addrs : List String) : List (String × Int) :=
  addrs.foldl (fun acc a =>
    if acc.any (fun e => e.1 = a) then
      acc.map (fun e => if e.1 = a then (e.1, e.2 + 1) else e)
    else acc ++ [(a, 1)]) []

/-- Stable insertion (descending by count) for `ORDER BY cnt DESC`. -/
def insertCountDesc (x : String × Int) : List (String × Int) → List (String × Int)
  | [] => [x]
  | y :: ys => if y.2 ≤ x.2 then x :: y :: ys else y :: insertCountDesc x ys

/-- Stable descending sort by count. -/
def sortCountDesc (l : List (String × Int)) : List (String × Int) :=
  l.foldr insertCountDesc []

/-- The `source_counts` query: muxed source addresses grouped, ordered by
count descending, limited to `top_limit` rows. -/
def sourceCounts (t : List PaymentRecord) (lim : Nat) : List (String × Int) :=
  (sortCountDesc (groupCounts (muxedSources t))).take lim

/-- The `dest_counts` query. -/
def destCounts (t : List PaymentRecord) (lim : Nat) : List (String × Int) :=
  (sortCountDesc (groupCounts (muxedDests t))).take lim

/-- `by_addr.entry(addr).or_insert((0, 0)).0 = cnt` for a source-count row. -/
def upsertSourceCount (m : List (String × Int × Int)) (row : String × Int) :
    List (String × Int × Int) :=
  if m.any (fun e => e.1 = row.1) then
    m.map (fun e => if e.1 = row.1 then (e.1, row.2, e.2.2) else e)
  else m ++ [(row.1, row.2, 0)]

/-- `by_addr.entry(addr).or_insert((0, 0)).1 = cnt` for a dest-count row. -/
def upsertDestCount (m : List (String × Int × Int)) (row : String × Int) :
    List (String × Int × Int) :=
  if m.any (fun e => e.1 = row.1) then
    m.map (fun e => if e.1 = row.1 then (e.1, e.2.1, row.2) else e)
  else m ++ [(row.1, 0, row.2)]

/-- The `by_addr` map (association list in insertion order). -/
def byAddr (t : List PaymentRecord) (lim : Nat) : List (String × Int × Int) :=
  (destCounts t lim).foldl upsertDestCount
    ((sourceCounts t lim).foldl upsertSourceCount [])

/-- Builds one `MuxedAccountUsage` from a `by_addr` entry, decoding the
address with `muxed::parse_muxed_address`. -/
def mkUsage (decode : String → Option MuxedInfo) (e : String × Int × Int) :
    MuxedAccountUsage :=
  let info := decode e.1
  { account_address := e.1
    base_account := info.bind (·.base_account)
    muxed_id := info.bind (·.muxed_id)
    payment_count_as_source := e.2.1
    payment_count_as_destination := e.2.2
    total_payments := e.2.1 + e.2.2 }

/-- Stable insertion (descending by `total_payments`) modelling the stable
`sort_by(|a, b| b.total_payments.cmp(&a.total_payments))`. -/
def insertTotalDesc (x : MuxedAccountUsage) :
    List MuxedAccountUsage → List MuxedAccountUsage
  | [] => [x]
  | y :: ys =>
    if y.total_payments ≤ x.total_payments then x :: y :: ys
    else y :: insertTotalDesc x ys

/-- Stable descending sort by `total_payments`. -/
def sortTotalDesc (l : List MuxedAccountUsage) : List MuxedAccountUsage :=
  l.foldr insertTotalDesc []

/-- Ascending duplicate-free insertion (a `BTreeSet` insert); string order is
lexicographic on the character data, matching Rust `String`'s `Ord`. -/
def insertSetAsc (x : String) : List String → List String
  | [] => [x]
  | y :: ys =>
    if x.data < y.data then x :: y :: ys
    else if x = y then y :: ys
    else y :: insertSetAsc x ys

/-- Collecting a list into a `BTreeSet` and iterating it back out:
ascending, duplicate-free. -/
def dedupSortAsc (l : List String) : List String :=
  l.foldl (fun acc x => insertSetAsc x acc) []

/-- `Database::get_muxed_analytics(top_limit)`: total count of payments
touching a muxed address, the top addresses ranked by activity, the distinct
muxed address count, and the base-account set collected from the (truncated)
top list. `top_limit` is modelled as a natural number (the Rust `i64` is used
as a LIMIT and converted with `as usize`). -/
def get_muxed_analytics (decode : String → Option MuxedInfo)
    (t : List PaymentRecord) (lim : Nat) : MuxedAccountAnalytics :=
  let total_muxed_payments : Int :=
    ((t.filter (fun p =>
      isMuxedAddr p.source_account || isMuxedAddr p.destination_account)).length : Int)
  let top : List MuxedAccountUsage :=
    (sortTotalDesc ((byAddr t lim).map (mkUsage decode))).take lim
  let unique_muxed_addresses : Int :=
    ((dedupSortAsc (muxedSources t ++ muxedDests t)).length : Int)
  { total_muxed_payments := total_muxed_payments
    unique_muxed_addresses := unique_muxed_addresses
    top_muxed_by_activity := top
    base_accounts_with_muxed := dedupSortAsc (top.filterMap (·.base_account)) }

/-- Entries of an insertion are the inserted element or original entries. -/
theorem mem_insertTotalDesc {z x : MuxedAccountUsage} :
    ∀ {l : List MuxedAccountUsage}, z ∈ insertTotalDesc x l ↔ z = x ∨ z ∈ l
  | [] => by simp [insertTotalDesc]
  | y :: ys => by
      simp only [insertTotalDesc]
      by_cases h : y.total_payments ≤ x.total_payments
      · rw [if_pos h]
        simp [List.mem_cons]
      · rw [if_neg h]
        simp only [List.mem_cons, mem_insertTotalDesc (l := ys)]
        tauto

/-- Descending order by total is preserved by the stable insertion. -/
theorem pairwise_insertTotalDesc {x : MuxedAccountUsage} :
    ∀ {l : List MuxedAccountUsage},
      l.Pairwise (fun a b => b.total_payments ≤ a.total_payments) →
      (insertTotalDesc x l).Pairwise (fun a b => b.total_payments ≤ a.total_payments)
  | [], _ => List.pairwise_singleton _ x
  | y :: ys, h => by
      rcases List.pairwise_cons.mp h with ⟨hy, hys⟩
      simp only [insertTotalDesc]
      by_cases hc : y.total_payments ≤ x.total_payments
      · rw [if_pos hc]
        refine List.pairwise_cons.mpr ⟨?_, h⟩
        intro b hb
        rcases List.mem_cons.mp hb with rfl | hb
        · exact hc
        · exact le_trans (hy b hb) hc
      · rw [if_neg hc]
        refine List.pairwise_cons.mpr ⟨?_, pairwise_insertTotalDesc hys⟩
        intro b hb
        rcases mem_insertTotalDesc.mp hb with rfl | hb
        · exact le_of_lt (lt_of_not_le hc)
        · exact hy b hb

/-- The stable descending sort indeed sorts by total, descending. -/
theorem pairwise_sortTotalDesc (l : List MuxedAccountUsage) :
    (sortTotalDesc l).Pairwise (fun a b => b.total_payments ≤ a.total_payments) := by
  induction l with
  | nil => exact List.Pairwise.nil
  | cons x xs ih => exact pairwise_insertTotalDesc ih

/-- C2 (amended): for every payments table, decoder and `top_limit`, the
`top_muxed_by_activity` list is sorted in non-increasing order of
`total_payments` (the relative order of tied entries is left unspecified by
the code) and contains at most `top_limit` entries. -/
theorem get_muxed_analytics_top_sorted_and_bounded
    (decode : String → Option MuxedInfo) (t : List PaymentRecord) (lim : Nat) :
    ((get_muxed_analytics decode t lim).top_muxed_by_activity).Pairwise
      (fun a b => b.total_payments ≤ a.total_payments) ∧
    ((get_muxed_analytics decode t lim).top_muxed_by_activity).length ≤ lim := by
  constructor
  · exact (pairwise_sortTotalDesc ((byAddr t lim).map (mkUsage decode))).sublist
      (List.take_sublist lim _)
  · exact List.length_take_le lim _

/-- A 69-character M-address used in counterexamples (base account GA). -/
def addrMA : String := "MA" ++ String.mk (List.replicate 67 'A')

/-- A second 69-character M-address, lexically after `addrMA`. -/
def addrMB : String := "MB" ++ String.mk (List.replicate 67 'A')

/-- A payment whose source is the given address. -/
def cePayment (src : String) : PaymentRecord :=
  { id := src, transaction_hash := "tx", source_account := src,
    destination_account := "GDST", asset_type := "native", asset_code := "",
    asset_issuer := "", amount := 1, created_at := 0 }

/-- A two-payment table whose sources are `addrMB` then `addrMA`. -/
def ceTable : List PaymentRecord := [cePayment addrMB, cePayment addrMA]

/-- The ordering asserted by the claim: strictly descending total, with ties
broken by ascending lexical order of the address. -/
def claimedTopOrder (a b : MuxedAccountUsage) : Prop :=
  b.total_payments < a.total_payments ∨
    (a.total_payments = b.total_payments ∧
      a.account_address.data < b.account_address.data)

instance : DecidableRel claimedTopOrder := fun a b => by
  unfold claimedTopOrder
  infer_instance

/-- C2 (counterexample): on the table `[payment from addrMB, payment from
addrMA]` with `top_limit = 2`, both addresses have total 1 but the returned
list is `[addrMB, addrMA]` — the tie is not broken by ascending lexical
address order. -/
theorem get_muxed_analytics_tie_order_counterexample :
    ((get_muxed_analytics (fun _ => none) ceTable 2).top_muxed_by_activity).map
        (·.account_address) = [addrMB, addrMA] ∧
    ((get_muxed_analytics (fun _ => none) ceTable 2).top_muxed_by_activity).map
        (·.total_payments) = [1, 1] ∧
    addrMA.data < addrMB.data ∧
    ¬ ((get_muxed_analytics (fun _ => none) ceTable 2).top_muxed_by_activity).Pairwise
        claimedTopOrder := by
  refine ⟨by decide, by decide, by decide, by decide⟩

/-- Membership in an ascending set insertion. -/
theorem mem_insertSetAsc {z x : String} :
    ∀ {l : List String}, z ∈ insertSetAsc x l ↔ z = x ∨ z ∈ l
  | [] => by simp [insertSetAsc]
  | y :: ys => by
      simp only [insertSetAsc]
      by_cases hlt : x.data < y.data
      · rw [if_pos hlt]
        simp [List.mem_cons]
      · rw [if_neg hlt]
        by_cases heq : x = y
        · rw [if_pos heq]
          subst heq
          simp only [List.mem_cons]
          tauto
        · rw [if_neg heq]
          simp only [List.mem_cons, mem_insertSetAsc (l := ys)]
          tauto

/-- Strict ascending order is preserved by the set insertion. -/
theorem pairwise_insertSetAsc {x : String} :
    ∀ {l : List String}, l.Pairwise (fun a b => a.data < b.data) →
      (insertSetAsc x l).Pairwise (fun a b => a.data < b.data)
  | [], _ => List.pairwise_singleton _ x
  | y :: ys, h => by
      rcases List.pairwise_cons.mp h with ⟨hy, hys⟩
      simp only [insertSetAsc]
      by_cases hlt : x.data < y.data
      · rw [if_pos hlt]
        refine List.pairwise_cons.mpr ⟨?_, h⟩
        intro b hb
        rcases List.mem_cons.mp hb with rfl | hb
        · exact hlt
        · exact lt_trans hlt (hy b hb)
      · rw [if_neg hlt]
        by_cases heq : x = y
        · rw [if_pos heq]
          exact h
        · rw [if_neg heq]
          refine List.pairwise_cons.mpr ⟨?_, pairwise_insertSetAsc hys⟩
          intro b hb
          rcases mem_insertSetAsc.mp hb with rfl | hb
          · rcases lt_trichotomy b.data y.data with hc | hc | hc
            · exact absurd hc hlt
            · exact absurd (String.ext hc) heq
            · exact hc
          · exact hy b hb

/-- The BTreeSet collect is strictly ascending. -/
theorem pairwise_dedupSortAsc (l : List String) :
    (dedupSortAsc l).Pairwise (fun a b => a.data < b.data) := by
  suffices h : ∀ (acc : List String), acc.Pairwise (fun a b => a.data < b.data) →
      (l.foldl (fun acc x => insertSetAsc x acc) acc).Pairwise
        (fun a b => a.data < b.data) by
    exact h [] List.Pairwise.nil
  induction l with
  | nil => exact fun acc h => h
  | cons x xs ih =>
      intro acc hacc
      exact ih (insertSetAsc x acc) (pairwise_insertSetAsc hacc)

/-- The BTreeSet collect has exactly the members of its input. -/
theorem mem_dedupSortAsc {z : String} (l : List String) :
    z ∈ dedupSortAsc l ↔ z ∈ l := by
  suffices h : ∀ (acc : List String),
      (z ∈ l.foldl (fun acc x => insertSetAsc x acc) acc ↔ z ∈ acc ∨ z ∈ l) by
    rw [dedupSortAsc, h []]
    simp
  induction l with
  | nil => intro acc; simp
  | cons x xs ih =>
      intro acc
      rw [List.foldl_cons, ih (insertSetAsc x acc)]
      simp only [mem_insertSetAsc, List.mem_cons]
      tauto

/-- C3 (amended): `base_accounts_with_muxed` is the strictly ascending,
duplicate-free set of the base accounts decoded from the entries of the
already-truncated `top_muxed_by_activity` list — so it covers exactly the top
list, not every muxed address in the table, and it depends on `top_limit`. -/
theorem get_muxed_analytics_base_accounts_from_top
    (decode : String → Option MuxedInfo) (t : List PaymentRecord) (lim : Nat) :
    ((get_muxed_analytics decode t lim).base_accounts_with_muxed).Pairwise
      (fun a b => a.data < b.data) ∧
    ∀ x, x ∈ (get_muxed_analytics decode t lim).base_accounts_with_muxed ↔
      ∃ u ∈ (get_muxed_analytics decode t lim).top_muxed_by_activity,
        u.base_account = some x := by
  refine ⟨pairwise_dedupSortAsc _, fun x => ?_⟩
  rw [show (get_muxed_analytics decode t lim).base_accounts_with_muxed =
    dedupSortAsc (((get_muxed_analytics decode t lim).top_muxed_by_activity).filterMap
      (·.base_account)) from rfl]
  rw [mem_dedupSortAsc]
  simp [List.mem_filterMap]

/-- The concrete decoder used in the C3 counterexample: `addrMA` has base
account GA, `addrMB` has base account GB. -/
def muxedDecoderCE : String → Option MuxedInfo := fun a =>
  if a = addrMA then some ⟨some "GA", some 1⟩
  else if a = addrMB then some ⟨some "GB", some 2⟩
  else none

/-- The set the claim specifies: the distinct base accounts of every
multiplexed address appearing in any payment as source or destination. -/
def specBaseAccountsWithMuxed (decode : String → Option MuxedInfo)
    (t : List PaymentRecord) : List String :=
  dedupSortAsc ((muxedSources t ++ muxedDests t).filterMap
    (fun a => (decode a).bind (·.base_account)))

/-- C3 (counterexample): on the two-payment table with muxed sources `addrMB`
and `addrMA` and `top_limit = 1`, the code returns only GB (the base of the
single top entry), while the claimed set of all muxed base accounts is
GA and GB; the result also changes when `top_limit` changes to 2. -/
theorem get_muxed_analytics_base_accounts_counterexample :
    (get_muxed_analytics muxedDecoderCE ceTable 1).base_accounts_with_muxed
      = ["GB"] ∧
    specBaseAccountsWithMuxed muxedDecoderCE ceTable = ["GA", "GB"] ∧
    (get_muxed_analytics muxedDecoderCE ceTable 1).base_accounts_with_muxed ≠
      specBaseAccountsWithMuxed muxedDecoderCE ceTable ∧
    (get_muxed_analytics muxedDecoderCE ceTable 1).base_accounts_with_muxed ≠
      (get_muxed_analytics muxedDecoderCE ceTable 2).base_accounts_with_muxed := by
  refine ⟨by decide, by decide, by decide, by decide⟩

/-! ## Anchor metric updates (database.rs, lines 438-498)

The UPDATE in `update_anchor_metrics` is embedded as its effect on one anchor
row. The reliability score and status come from
`compute_anchor_metrics` (crate::analytics, not under src/) and are passed
through as parameters; they play no role in the volume column. The key detail
embedded from source: the statement text is
`total_volume_usd = COALESCE($7, total_volume_usd)` but the bound parameter is
`volume_usd.unwrap_or(0.0)` — a non-NULL SQL value in every case. -/

/-- An anchor row, restricted to the columns the UPDATE touches plus its id. -/
structure Anchor where
  id : String
  total_transactions : Int
  successful_transactions : Int
  failed_transactions : Int
  avg_settlement_time_ms : Int
  reliability_score : Rat
  status : String
  total_volume_usd : Rat
  updated_at : Int
deriving DecidableEq, Repr

/-- SQL `COALESCE` of a nullable value and a column. -/
def coalesce (x : Option Rat) (y : Rat) : Rat :=
  match x with
  | some v => v
  | none => y

/-- The row effect of the UPDATE in `Database::update_anchor_metrics`: every
bound parameter mirrors the corresponding `.bind(...)` — in particular $4 is
`avg_settlement_time_ms.unwrap_or(0)` and $7 is `volume_usd.unwrap_or(0.0)`
(never NULL), fed into `COALESCE($7, total_volume_usd)`. `score` and `st` are
the outputs of `compute_anchor_metrics`, `now` is `Utc::now()`. -/
def update_anchor_metrics_row (a : Anchor) (total succ failed : Int)
    (avg_settlement_time_ms : Option Int) (volume_usd : Option Rat)
    (score : Rat) (st : String) (now : Int) : Anchor :=
  { a with
    total_transactions := total
    successful_transactions := succ
    failed_transactions := failed
    avg_settlement_time_ms := avg_settlement_time_ms.getD 0
    reliability_score := score
    status := st
    total_volume_usd := coalesce (some (volume_usd.getD 0)) a.total_volume_usd
    updated_at := now }

/-- An anchor row with a nonzero stored volume. -/
def sampleAnchor : Anchor :=
  { id := "anchor-1", total_transactions := 100, successful_transactions := 90,
    failed_transactions := 10, avg_settlement_time_ms := 1200,
    reliability_score := 90, status := "healthy", total_volume_usd := 500,
    updated_at := 0 }

/-- C9: calling `update_anchor_metrics` with `volume_usd = None` does NOT
preserve the stored `total_volume_usd` — it overwrites it with 0, because the
bind `volume_usd.unwrap_or(0.0)` never passes NULL to the COALESCE. On the
sample anchor storing 500, the updated row holds 0 (while a `Some` volume is
stored as given, and the other fields are updated as the claim says). -/
theorem update_anchor_metrics_volume_none_overwrites :
    (update_anchor_metrics_row sampleAnchor 200 180 20 none none 92 "healthy"
      7).total_volume_usd = 0 ∧
    sampleAnchor.total_volume_usd = 500 ∧
    (update_anchor_metrics_row sampleAnchor 200 180 20 none (some 250) 92
      "healthy" 7).total_volume_usd = 250 ∧
    (update_anchor_metrics_row sampleAnchor 200 180 20 none none 92 "healthy"
      7).total_transactions = 200 ∧
    (update_anchor_metrics_row sampleAnchor 200 180 20 none none 92 "healthy"
      7).updated_at = 7 := by
  refine ⟨by decide, by decide, by decide, by decide, by decide⟩

/-! ## Background sync loop (main.rs, lines 97-113)

The spawned task is

  loop { select! { _ = interval.tick() => { sync_all_metrics().await ... },
                   _ = shutdown_rx.recv() => break } }

embedded as a labelled transition system. The loop is at its select point
(`atSelect`), executing an awaited cycle (`running`), or exited (`stopped`);
`tickReady` / `shutdownPending` record a fired timer and a delivered shutdown
signal not yet consumed by the select. Arrival events can happen in any
phase; the select branches (`startCycle`, `observeShutdown`) fire only in
`atSelect`, because the `.await` inside the tick branch keeps control inside
the cycle until it completes (`finishCycle` — errors are logged and the loop
continues). -/

inductive SyncPhase where
  | atSelect
  | running
  | stopped
deriving DecidableEq, Repr

structure SyncLoopState where
  phase : SyncPhase
  tickReady : Bool
  shutdownPending : Bool
deriving DecidableEq, Repr

inductive SyncLabel where
  | tickArrives
  | shutdownArrives
  | startCycle
  | finishCycle
  | observeShutdown
deriving DecidableEq, Repr

/-- Small-step semantics of the sync task's select loop. -/
inductive SyncStep : SyncLoopState → SyncLabel → SyncLoopState → Prop where
  | tickArrives (ph : SyncPhase) (tr sd : Bool) :
      SyncStep ⟨ph, tr, sd⟩ .tickArrives ⟨ph, true, sd⟩
  | shutdownArrives (ph : SyncPhase) (tr sd : Bool) :
      SyncStep ⟨ph, tr, sd⟩ .shutdownArrives ⟨ph, tr, true⟩
  | startCycle (sd : Bool) :
      SyncStep ⟨.atSelect, true, sd⟩ .startCycle ⟨.running, false, sd⟩
  | observeShutdown (tr : Bool) :
      SyncStep ⟨.atSelect, tr, true⟩ .observeShutdown ⟨.stopped, tr, false⟩
  | finishCycle (tr sd : Bool) :
      SyncStep ⟨.running, tr, sd⟩ .finishCycle ⟨.atSelect, tr, sd⟩

/-- C8: in the sync loop, (i) a cycle can start only from the select point —
never while a previous cycle is running; (ii) while a cycle runs, the only
phase change is the cycle's own completion back to the select point, so a
shutdown signal cannot interrupt it; (iii) a shutdown signal's arrival never
changes the phase; (iv) the signal is observed only at the select point, and
observing it exits the loop. -/
theorem sync_loop_single_flight_and_deferred_shutdown
    (s s' : SyncLoopState) (l : SyncLabel) (h : SyncStep s l s') :
    (l = .startCycle → s.phase = .atSelect ∧ s'.phase = .running) ∧
    (s.phase = .running →
      s'.phase = .running ∨ (l = .finishCycle ∧ s'.phase = .atSelect)) ∧
    (l = .shutdownArrives → s'.phase = s.phase) ∧
    (l = .observeShutdown → s.phase = .atSelect ∧ s'.phase = .stopped) := by
  cases h <;> refine ⟨?_, ?_, ?_, ?_⟩ <;> intro hh <;> simp_all

/-- Witness for C8 at the concrete step that starts a cycle from the select
point. -/
theorem sync_loop_single_flight_witness :
    SyncStep ⟨.atSelect, true, false⟩ .startCycle ⟨.running, false, false⟩ ∧
    ((SyncLabel.startCycle = .startCycle →
        SyncLoopState.phase ⟨.atSelect, true, false⟩ = .atSelect ∧
        SyncLoopState.phase ⟨.running, false, false⟩ = .running) ∧
      (SyncLoopState.phase ⟨.atSelect, true, false⟩ = .running →
        SyncLoopState.phase ⟨.running, false, false⟩ = .running ∨
          (SyncLabel.startCycle = .finishCycle ∧
            SyncLoopState.phase ⟨.running, false, false⟩ = .atSelect)) ∧
      (SyncLabel.startCycle = .shutdownArrives →
        SyncLoopState.phase ⟨.running, false, false⟩ =
          SyncLoopState.phase ⟨.atSelect, true, false⟩) ∧
      (SyncLabel.startCycle = .observeShutdown →
        SyncLoopState.phase ⟨.atSelect, true, false⟩ = .atSelect ∧
        SyncLoopState.phase ⟨.running, false, false⟩ = .stopped)) :=
  ⟨.startCycle false,
    sync_loop_single_flight_and_deferred_shutdown _ _ _ (.startCycle false)⟩

end StellarInsights
